import Mathlib

/-!
Shallow embedding of the default matrix-storage allocator of this nalgebra
fork (src/base/default_allocator.rs) together with the scalar helper
(src/base/scalar.rs), and proofs of the specified properties.

Buffers are modelled as flat lists in storage order (column-major).  A slot
that may be uninitialized is an `Option` value, `none` standing for an
uninitialized slot (Rust's `MaybeUninit` staging).  A fatal assertion
failure (panic) is modelled as the `none` outcome of an `Option`-returning
operation.
-/

set_option autoImplicit false

namespace Nalgebra

universe u

variable {T : Type u} {U : Type u}

/-- A run-time dimension descriptor: `Const n` models the type-level static
dimension `Const<N>` (its `value()` is the compile-time constant), and
`Dynamic n` models the `Dynamic` descriptor carrying a run-time integer.
The constructor plays the role of the type-level static/dynamic distinction
used for trait dispatch. -/
inductive Dim : Type where
  | Const : Nat → Dim
  | Dynamic : Nat → Dim
deriving DecidableEq

/-- `Dim::value()`: the logical extent represented by the descriptor. -/
def Dim.value : Dim → Nat
  | .Const n => n
  | .Dynamic n => n

/-- Whether the descriptor is of the static kind (a `Const<N>`). -/
def Dim.isStatic : Dim → Bool
  | .Const _ => true
  | .Dynamic _ => false

/-- `VecStorage<T, R, C>`: the resizable (heap-backed) buffer, holding its
two dimension descriptors' run-time values and the contiguous data in
column-major order. -/
structure VecStorage (T : Type u) : Type u where
  nrows : Nat
  ncols : Nat
  data : List T
deriving DecidableEq

/-- Modelled from the spec: `VecStorage::new` (src/base/vec_storage.rs is
not under src/) packages the dimension descriptors with the data vector;
the resizable-buffer invariant `data.length = nrows * ncols` is established
by every caller in this core before calling it. -/
def VecStorage.new (nrows ncols : Nat) (data : List T) : VecStorage T :=
  ⟨nrows, ncols, data⟩

/-- Result of the sequential fill loop of the static-static
`allocate_from_iterator`: the slot array after the loop, the number of
elements consumed (`count`), and the part of the input iterator that was
never drawn. -/
structure FillResult (T : Type u) : Type u where
  slots : List (Option T)
  count : Nat
  rest : List T
deriving DecidableEq

/-- The loop `for (res, e) in res.as_mut_slice().iter_mut().zip(iter)` of
the static-static `allocate_from_iterator` (default_allocator.rs lines
47-50): writes successive iterator elements into successive slots, stopping
as soon as either side is exhausted; Rust's `Zip` polls the slot side first,
so once the slots run out no further element is drawn from the iterator. -/
def fillZip : List (Option T) → List T → FillResult T
  | [], es => ⟨[], 0, es⟩
  | s :: ss, [] => ⟨s :: ss, 0, []⟩
  | _ :: ss, e :: es =>
    let r := fillZip ss es
    ⟨some e :: r.slots, r.count + 1, r.rest⟩

/-- `ArrayStorage::assume_init` on the slot array: defined (yields the
element list) exactly when every slot has been initialized; reading an
uninitialized slot would be undefined behavior, modelled as `none`. -/
def assume_init : List (Option T) → Option (List T)
  | [] => some []
  | none :: _ => none
  | some x :: rest => (assume_init rest).map (fun l => x :: l)

/-- `allocate_from_iterator` of the Static-Static impl
(default_allocator.rs lines 39-59): allocate `R * C` uninitialized slots,
fill them from the iterator counting the elements consumed, assert
`count == nrows.value() * ncols.value()` (panic = `none` when it fails),
then `assume_init`. -/
def allocate_from_iterator_static (R C : Nat) (iter : List T) : Option (List T) :=
  let res : List (Option T) := List.replicate (R * C) none
  let r := fillZip res iter
  if r.count = R * C then assume_init r.slots else none

/-- `allocate_from_iterator` of the Dynamic-rows impl
(default_allocator.rs lines 69-80): collect the whole iterator into a
vector, assert its length equals `nrows.value() * ncols.value()`
(panic = `none` otherwise), and wrap it with `VecStorage::new`. -/
def allocate_from_iterator_dynRows (nrowsVal ncolsVal : Nat) (iter : List T) :
    Option (VecStorage T) :=
  let res := iter
  if res.length = nrowsVal * ncolsVal then some (VecStorage.new nrowsVal ncolsVal res)
  else none

/-- `allocate_from_iterator` of the static-rows Dynamic-columns impl
(default_allocator.rs lines 89-100): textually the same algorithm as the
Dynamic-rows impl (collect, assert the length, wrap). -/
def allocate_from_iterator_dynCols (nrowsVal ncolsVal : Nat) (iter : List T) :
    Option (VecStorage T) :=
  let res := iter
  if res.length = nrowsVal * ncolsVal then some (VecStorage.new nrowsVal ncolsVal res)
  else none

/-- The buffer actually handed to the caller: `ArrayStorage` (inline,
fixed-size) when both dimensions are static, `VecStorage` (resizable,
heap-backed) otherwise.  The constructor records which representation the
trait dispatch selected. -/
inductive Buffer (T : Type u) : Type u where
  | inlineBuf : List T → Buffer T
  | resizable : VecStorage T → Buffer T
deriving DecidableEq

/-- Whether the buffer is the inline (`ArrayStorage`) representation. -/
def Buffer.isInline : Buffer T → Bool
  | .inlineBuf _ => true
  | .resizable _ => false

/-- The buffer's contents read back in storage order. -/
def Buffer.data : Buffer T → List T
  | .inlineBuf d => d
  | .resizable vs => vs.data

/-- The trait dispatch of `BaseAllocator::allocate_from_iterator`: the impl
is selected by the static/dynamic kind of the two dimension descriptors
(never by their run-time values), exactly as Rust resolves the four impls:
(Const, Const) at lines 35-60, (Dynamic, C) at lines 65-81 and
(R: DimName, Dynamic) at lines 85-101 of default_allocator.rs. -/
def allocate_from_iterator (r c : Dim) (iter : List T) : Option (Buffer T) :=
  match r, c with
  | .Const R, .Const C => (allocate_from_iterator_static R C iter).map .inlineBuf
  | .Dynamic n, c => (allocate_from_iterator_dynRows n c.value iter).map .resizable
  | .Const R, .Dynamic n => (allocate_from_iterator_dynCols R n iter).map .resizable

/-- `ptr::copy_nonoverlapping(src, dst, count)` on buffers in storage
order: the first `count` slots of `dst` are overwritten with the first
`count` elements of `src`; the remaining slots of `dst` are untouched. -/
def copy_nonoverlapping (src : List T) (dst : List (Option T)) (count : Nat) :
    List (Option T) :=
  (src.take count).map some ++ dst.drop count

/-- `reallocate_copy` of the `Reallocator<T, RFrom, CFrom, Const<RTO>,
Const<CTO>>` impl (default_allocator.rs lines 117-139): allocate an
uninitialized `RTO * CTO`-slot inline buffer (step 1; the static
`allocate_from_iterator` applied to `iter::repeat_with(uninit)` fills every
slot with an uninitialized marker and its count assertion passes), read the
old buffer's shape, copy `min(len_from, len_to)` elements (steps 2-3), and
`assume_init` (step 4; slots past the copied prefix stay uninitialized,
kept here as `none`). -/
def reallocate_copy_toStatic (RTO CTO rfromVal cfromVal : Nat) (buf : List T) :
    List (Option T) :=
  let res : List (Option T) := List.replicate (RTO * CTO) none
  let len_from := rfromVal * cfromVal
  let len_to := RTO * CTO
  copy_nonoverlapping buf res (min len_from len_to)

/-- Modelled from the spec: `VecStorage::resize(n)` (src/base/vec_storage.rs
is not under src/) reuses the heap allocation to hold exactly `n` elements,
copying the overlapping prefix and leaving any extension beyond the old
length uninitialized (the spec's copy-truncate-or-extend primitive, whose
tail is the caller's responsibility). -/
def VecStorage.resize (data : List T) (n : Nat) : List (Option T) :=
  (data.take n).map some ++ List.replicate (n - data.length) none

/-- `reallocate_copy` of the dynamic-to-dynamic impls (default_allocator.rs
lines 212-219, 227-234, 242-249, 257-264, all textually identical):
`buf.resize(rto.value() * cto.value())` followed by `VecStorage::new`. -/
def reallocate_copy_dynToDyn (rtoVal ctoVal : Nat) (buf : VecStorage T) :
    VecStorage (Option T) :=
  let new_buf := VecStorage.resize buf.data (rtoVal * ctoVal)
  VecStorage.new rtoVal ctoVal new_buf

/-- The allocate-then-block-copy algorithm written from the spec's own
words (spec section 4.2 steps 1-4), for comparison with the resize-based
dynamic-to-dynamic `reallocate_copy`: allocate `new_len` uninitialized
slots, compute `copy_count = min(old_len, new_len)`, block-copy that prefix
from the old buffer, leave the tail uninitialized. -/
def blockCopyRealloc (new_len : Nat) (buf : List T) : List (Option T) :=
  copy_nonoverlapping buf (List.replicate new_len none) (min buf.length new_len)

/-- A Rust iterator as a stream of optional next values together with a
fuel-bounded `collect`: `collectFuel src pos fuel` returns the collected
vector if the iterator, polled from position `pos`, is exhausted within
`fuel` polls, and `none` when `fuel` polls do not suffice.  `Vec::collect`
terminates on a source exactly when some finite fuel suffices. -/
def collectFuel (src : Nat → Option T) : Nat → Nat → Option (List T)
  | _, 0 => none
  | pos, fuel + 1 =>
    match src pos with
    | none => some []
    | some x => (collectFuel src (pos + 1) fuel).map (fun l => x :: l)

/-- `iter::repeat_with(MaybeUninit::uninit)` as a stream: it yields an
uninitialized marker at every poll and is never exhausted. -/
def repeatUninit : Nat → Option (Option T) :=
  fun _ => some none

/-- `reallocate_copy` of the `Reallocator<T, Const<RFROM>, Const<CFROM>,
Dynamic, CTo>` impl (default_allocator.rs lines 150-172), fuel-bounded:
step 1 calls the Dynamic-rows `allocate_from_iterator` on
`iter::repeat_with(uninit)`, which collects the iterator; only if that
collect finishes within `fuel` polls does the impl reach its length
assertion, the block copy of steps 2-3 and `VecStorage::new`. -/
def reallocate_copy_staticToDynRows (RFROM CFROM rtoVal ctoVal : Nat)
    (buf : List T) (fuel : Nat) : Option (VecStorage (Option T)) :=
  match collectFuel (repeatUninit (T := T)) 0 fuel with
  | none => none
  | some slots =>
    if slots.length = rtoVal * ctoVal then
      let len_from := RFROM * CFROM
      let len_to := rtoVal * ctoVal
      some (VecStorage.new rtoVal ctoVal
        (copy_nonoverlapping buf slots (min len_from len_to)))
    else none

/-- `reallocate_copy` of the `Reallocator<T, Const<RFROM>, Const<CFROM>,
RTo, Dynamic>` impl (default_allocator.rs lines 183-205), fuel-bounded:
textually the same algorithm as the Dynamic-rows destination impl, with
the static rows and dynamic columns in the destination shape. -/
def reallocate_copy_staticToDynCols (RFROM CFROM rtoVal ctoVal : Nat)
    (buf : List T) (fuel : Nat) : Option (VecStorage (Option T)) :=
  match collectFuel (repeatUninit (T := T)) 0 fuel with
  | none => none
  | some slots =>
    if slots.length = rtoVal * ctoVal then
      let len_from := RFROM * CFROM
      let len_to := rtoVal * ctoVal
      some (VecStorage.new rtoVal ctoVal
        (copy_nonoverlapping buf slots (min len_from len_to)))
    else none

/-- The `Clone` capability of an element type: how `self.clone()` behaves. -/
structure CloneImpl (T : Type u) : Type u where
  clone : T → T

/-- The default method body of `InlinedClone::inlined_clone`
(src/base/scalar.rs lines 23-31): `self.clone()`. -/
def inlined_clone_default (c : CloneImpl T) (x : T) : T :=
  c.clone x

/-- `Clone` as derived for a `Copy` scalar type: cloning copies the value,
`clone(&self) = *self`. -/
def copyCloneImpl (T : Type u) : CloneImpl T :=
  ⟨fun x => x⟩

/-- The `impl<T: Copy> InlinedClone for T` override (src/base/scalar.rs
lines 33-38): `inlined_clone(&self) = *self`. -/
def inlined_clone_copy (x : T) : T :=
  x

/-! ### Lemmas about the fill loop and the uninitialized staging -/

theorem fillZip_count (slots : List (Option T)) (es : List T) :
    (fillZip slots es).count = min slots.length es.length := by
  induction slots generalizing es with
  | nil => simp [fillZip]
  | cons s ss ih =>
    cases es with
    | nil => simp [fillZip]
    | cons e es => simp [fillZip, ih es, Nat.succ_min_succ]

theorem fillZip_slots_of_le (slots : List (Option T)) (es : List T)
    (h : slots.length ≤ es.length) :
    (fillZip slots es).slots = (es.take slots.length).map some := by
  induction slots generalizing es with
  | nil => simp [fillZip]
  | cons s ss ih =>
    cases es with
    | nil => simp at h
    | cons e es =>
      have h' : ss.length ≤ es.length := by simpa using h
      simp [fillZip, ih es h']

theorem fillZip_rest_of_le (slots : List (Option T)) (es : List T)
    (h : slots.length ≤ es.length) :
    (fillZip slots es).rest = es.drop slots.length := by
  induction slots generalizing es with
  | nil => simp [fillZip]
  | cons s ss ih =>
    cases es with
    | nil => simp at h
    | cons e es =>
      have h' : ss.length ≤ es.length := by simpa using h
      simp [fillZip, ih es h']

theorem assume_init_map_some (l : List T) : assume_init (l.map some) = some l := by
  induction l with
  | nil => rfl
  | cons x xs ih => simp [assume_init, ih]

theorem dropReplicate (a : Option T) (n m : Nat) :
    (List.replicate n a).drop m = List.replicate (n - m) a := by
  induction m generalizing n with
  | zero => simp
  | succ m ih =>
    cases n with
    | zero => simp
    | succ n =>
      rw [List.replicate_succ, List.drop_succ_cons, ih n, Nat.succ_sub_succ]

/-! ### Evaluation lemmas for the allocator -/

theorem allocate_static_of_le (R C : Nat) (iter : List T) (h : R * C ≤ iter.length) :
    allocate_from_iterator_static R C iter = some (iter.take (R * C)) := by
  have hlen : (List.replicate (R * C) (none : Option T)).length ≤ iter.length := by
    simpa using h
  simp only [allocate_from_iterator_static]
  rw [fillZip_count, List.length_replicate, Nat.min_eq_left h, if_pos rfl]
  rw [fillZip_slots_of_le _ _ hlen, List.length_replicate, assume_init_map_some]

theorem allocate_static_of_lt (R C : Nat) (iter : List T) (h : iter.length < R * C) :
    allocate_from_iterator_static R C iter = none := by
  simp only [allocate_from_iterator_static]
  rw [fillZip_count, List.length_replicate,
    if_neg (show ¬min (R * C) iter.length = R * C by omega)]

theorem allocate_static_some_length (R C : Nat) (iter : List T) (d : List T)
    (h : allocate_from_iterator_static R C iter = some d) :
    d.length = R * C := by
  by_cases hle : R * C ≤ iter.length
  · rw [allocate_static_of_le R C iter hle] at h
    cases h
    rw [List.length_take, Nat.min_eq_left hle]
  · rw [allocate_static_of_lt R C iter (by omega)] at h
    exact Option.noConfusion h

/-! ### Evaluation lemmas for the reallocator -/

theorem reallocate_copy_toStatic_eq (RTO CTO rf cf : Nat) (buf : List T) :
    reallocate_copy_toStatic RTO CTO rf cf buf =
      (buf.take (min (rf * cf) (RTO * CTO))).map some ++
        List.replicate (RTO * CTO - min (rf * cf) (RTO * CTO)) none := by
  simp [reallocate_copy_toStatic, copy_nonoverlapping, dropReplicate]

theorem resize_eq_blockCopy (data : List T) (n : Nat) :
    VecStorage.resize data n = blockCopyRealloc n data := by
  unfold VecStorage.resize blockCopyRealloc copy_nonoverlapping
  rw [dropReplicate]
  rcases Nat.le_total data.length n with h | h
  · rw [Nat.min_eq_left h, List.take_of_length_le h, List.take_length]
  · rw [Nat.min_eq_right h, Nat.sub_self, Nat.sub_eq_zero_of_le h]

theorem collectFuel_repeatUninit (fuel pos : Nat) :
    collectFuel (repeatUninit (T := T)) pos fuel = none := by
  induction fuel generalizing pos with
  | zero => rfl
  | succ fuel ih => simp [collectFuel, repeatUninit, ih]

/-- Adequacy of the fueled collect: on a finite source (a list, exhausted
after its last element) the collect finishes with the whole list once the
fuel covers one poll per element plus the final exhausted poll.  This ties
the fuel model to real `Vec::collect` behavior on terminating iterators. -/
theorem collectFuel_succ (src : Nat → Option T) (pos fuel : Nat) :
    collectFuel src pos (fuel + 1) =
      match src pos with
      | none => some []
      | some x => (collectFuel src (pos + 1) fuel).map (fun l => x :: l) :=
  rfl

theorem collectFuel_finite (l : List T) (src : Nat → Option T) (pos : Nat)
    (h : ∀ i, src (pos + i) = l.get? i) :
    collectFuel src pos (l.length + 1) = some l := by
  induction l generalizing pos with
  | nil =>
    have h0 : src pos = none := h 0
    rw [collectFuel_succ, h0]
  | cons x xs ih =>
    have h0 : src pos = some x := h 0
    have hrec := ih (pos + 1) (fun i => by
      rw [show pos + 1 + i = pos + (i + 1) by omega]
      exact h (i + 1))
    rw [List.length_cons, collectFuel_succ, h0, hrec]
    rfl

/-! ### Claim theorems -/

/-- Claim C1, counterexample: the claim says a sequence of length 5 for the
static 2-by-2 shape fails fatally in every instantiation, but the
static-static `allocate_from_iterator` returns normally, silently
truncating to the first four elements (its assertion only checks that the
iterator is not too short). -/
theorem c1_counterexample :
    allocate_from_iterator (Dim.Const 2) (Dim.Const 2) ([1, 2, 3, 4, 5] : List Nat) =
      some (Buffer.inlineBuf [1, 2, 3, 4]) := by
  decide

/-- Claim C1, amended: for every shape and every element sequence, a
sequence shorter than `rows.value() * cols.value()` makes
`allocate_from_iterator` fail fatally in all four dimension-kind
instantiations; a sequence longer than the product makes the three
instantiations with a dynamic dimension fail fatally, while the
static-static instantiation returns normally with the sequence silently
truncated to the first `R * C` elements. -/
theorem c1_amended {T : Type u} (r c : Dim) (iter : List T) :
    (iter.length < r.value * c.value → allocate_from_iterator r c iter = none)
    ∧ (r.value * c.value < iter.length →
        allocate_from_iterator r c iter =
          match r, c with
          | .Const R, .Const C => some (Buffer.inlineBuf (iter.take (R * C)))
          | _, _ => none) := by
  constructor
  · intro h
    cases r with
    | Const R =>
      cases c with
      | Const C =>
        simp only [allocate_from_iterator]
        rw [allocate_static_of_lt R C iter h, Option.map_none']
      | Dynamic nc =>
        have hne : ¬iter.length = R * nc := Nat.ne_of_lt h
        simp only [allocate_from_iterator, allocate_from_iterator_dynCols]
        rw [if_neg hne, Option.map_none']
    | Dynamic nr =>
      have hne : ¬iter.length = nr * c.value := Nat.ne_of_lt h
      simp only [allocate_from_iterator, allocate_from_iterator_dynRows]
      rw [if_neg hne, Option.map_none']
  · intro h
    cases r with
    | Const R =>
      cases c with
      | Const C =>
        simp only [allocate_from_iterator]
        rw [allocate_static_of_le R C iter (Nat.le_of_lt h), Option.map_some']
      | Dynamic nc =>
        have hne : ¬iter.length = R * nc := Nat.ne_of_gt h
        simp only [allocate_from_iterator, allocate_from_iterator_dynCols]
        rw [if_neg hne, Option.map_none']
    | Dynamic nr =>
      cases c with
      | Const C =>
        have hne : ¬iter.length = nr * (Dim.Const C).value := Nat.ne_of_gt h
        simp only [allocate_from_iterator, allocate_from_iterator_dynRows]
        rw [if_neg hne, Option.map_none']
      | Dynamic nc =>
        have hne : ¬iter.length = nr * (Dim.Dynamic nc).value := Nat.ne_of_gt h
        simp only [allocate_from_iterator, allocate_from_iterator_dynRows]
        rw [if_neg hne, Option.map_none']

/-- Claim C1, witness: a too-short sequence for a dynamic 2-by-2 shape
fails fatally, and a too-long sequence for the static 2-by-2 shape is
silently truncated, instantiating the amended claim at concrete inputs. -/
theorem c1_amended_witness :
    allocate_from_iterator (Dim.Dynamic 2) (Dim.Const 2) ([1, 2, 3] : List Nat) = none
    ∧ allocate_from_iterator (Dim.Const 2) (Dim.Const 2)
        ([10, 20, 30, 40, 50] : List Nat) = some (Buffer.inlineBuf [10, 20, 30, 40]) :=
  ⟨(c1_amended (Dim.Dynamic 2) (Dim.Const 2) [1, 2, 3]).1 (by decide),
   (c1_amended (Dim.Const 2) (Dim.Const 2) [10, 20, 30, 40, 50]).2 (by decide)⟩

/-- Claim C9: for a static shape and a strictly longer element sequence,
the static-static `allocate_from_iterator` returns normally (its count
assertion passes), its buffer holds exactly the first `R * C` elements of
the sequence in storage order, and the remaining elements of the sequence
are never drawn by the zip-bounded fill loop (they are its untouched
rest). -/
theorem c9_static_truncates_long_iterator {T : Type u} (R C : Nat) (iter : List T)
    (h : R * C < iter.length) :
    allocate_from_iterator_static R C iter = some (iter.take (R * C))
    ∧ (fillZip (List.replicate (R * C) (none : Option T)) iter).rest =
        iter.drop (R * C) := by
  refine ⟨allocate_static_of_le R C iter (Nat.le_of_lt h), ?_⟩
  rw [fillZip_rest_of_le _ _ (by simpa using Nat.le_of_lt h), List.length_replicate]

/-- Claim C9, witness: shape 2-by-2 with the five-element sequence: the
allocator returns the first four elements and the fifth is never drawn. -/
theorem c9_witness :
    allocate_from_iterator_static 2 2 ([1, 2, 3, 4, 5] : List Nat) = some [1, 2, 3, 4]
    ∧ (fillZip (List.replicate (2 * 2) (none : Option Nat)) [1, 2, 3, 4, 5]).rest = [5] :=
  c9_static_truncates_long_iterator 2 2 [1, 2, 3, 4, 5] (by decide)

/-- Claim C2: for every shape and every element sequence of length exactly
`rows.value() * cols.value()`, `allocate_from_iterator` (in each of the
four dimension-kind instantiations, as selected by the dispatcher) returns
a buffer whose elements read back in storage order are exactly the input
sequence. -/
theorem c2_exact_length_reads_back {T : Type u} (r c : Dim) (iter : List T)
    (h : iter.length = r.value * c.value) :
    (allocate_from_iterator r c iter).map Buffer.data = some iter := by
  cases r with
  | Const R =>
    cases c with
    | Const C =>
      have hle : R * C ≤ iter.length := Nat.le_of_eq h.symm
      simp only [allocate_from_iterator]
      rw [allocate_static_of_le R C iter hle]
      have ht : iter.take (R * C) = iter := by
        simp only [Dim.value] at h
        rw [← h, List.take_length]
      rw [ht]
      rfl
    | Dynamic nc =>
      have hp : iter.length = R * nc := h
      simp only [allocate_from_iterator, allocate_from_iterator_dynCols]
      rw [if_pos hp]
      rfl
  | Dynamic nr =>
    have hp : iter.length = nr * c.value := h
    simp only [allocate_from_iterator, allocate_from_iterator_dynRows]
    rw [if_pos hp]
    rfl

/-- Claim C2, witness: a dynamic 2-by-3 shape with the six-element sequence
reads back exactly that sequence. -/
theorem c2_witness :
    (allocate_from_iterator (Dim.Dynamic 2) (Dim.Const 3)
        ([1, 2, 3, 4, 5, 6] : List Nat)).map Buffer.data = some [1, 2, 3, 4, 5, 6] :=
  c2_exact_length_reads_back (Dim.Dynamic 2) (Dim.Const 3) [1, 2, 3, 4, 5, 6] (by decide)

/-- Claim C3: at the claim's own shrink input (a 2-by-3 buffer holding
1..6, reallocated to a 2-by-2 destination) the static-source-to-dynamic
destination instantiation of `reallocate_copy` never produces any buffer:
its first step collects `iter::repeat_with(uninit)`, an iterator that is
never exhausted, so no amount of fuel lets the collect finish.  (The
prefix-preservation the claim states does hold for the instantiations that
return; see the C6 and C7 theorems.) -/
theorem c3_shrink_static_to_dyn_never_returns (fuel : Nat) :
    reallocate_copy_staticToDynRows 2 3 2 2 ([1, 2, 3, 4, 5, 6] : List Nat) fuel =
      none := by
  simp [reallocate_copy_staticToDynRows, collectFuel_repeatUninit]

/-- Claim C4: every buffer actually handed back to a caller satisfies
`length = rows.value() * cols.value()` for its shape descriptors: buffers
returned by `allocate_from_iterator` (any dimension-kind pair), by the
static-destination `reallocate_copy` (under its contract that the old
buffer's declared shape matches its length) and by the dynamic-to-dynamic
`reallocate_copy`. -/
theorem c4_length_invariant {T : Type u} :
    (∀ (r c : Dim) (iter : List T) (buf : Buffer T),
        allocate_from_iterator r c iter = some buf →
        buf.data.length = r.value * c.value)
    ∧ (∀ (RTO CTO rf cf : Nat) (buf : List T), buf.length = rf * cf →
        (reallocate_copy_toStatic RTO CTO rf cf buf).length = RTO * CTO)
    ∧ (∀ (rto cto : Nat) (vs : VecStorage T),
        (reallocate_copy_dynToDyn rto cto vs).data.length = rto * cto) := by
  refine ⟨?_, ?_, ?_⟩
  · intro r c iter buf h
    cases r with
    | Const R =>
      cases c with
      | Const C =>
        simp only [allocate_from_iterator] at h
        cases heq : allocate_from_iterator_static R C iter with
        | none => rw [heq, Option.map_none'] at h; exact Option.noConfusion h
        | some d =>
          rw [heq, Option.map_some'] at h
          cases h
          simpa [Buffer.data, Dim.value] using
            allocate_static_some_length R C iter d heq
      | Dynamic nc =>
        simp only [allocate_from_iterator, allocate_from_iterator_dynCols] at h
        by_cases hlen : iter.length = R * nc
        · rw [if_pos hlen, Option.map_some'] at h
          cases h
          simpa [Buffer.data, VecStorage.new, Dim.value] using hlen
        · rw [if_neg hlen, Option.map_none'] at h
          exact Option.noConfusion h
    | Dynamic nr =>
      simp only [allocate_from_iterator, allocate_from_iterator_dynRows] at h
      by_cases hlen : iter.length = nr * c.value
      · rw [if_pos hlen, Option.map_some'] at h
        cases h
        simpa [Buffer.data, VecStorage.new, Dim.value] using hlen
      · rw [if_neg hlen, Option.map_none'] at h
        exact Option.noConfusion h
  · intro RTO CTO rf cf buf hbuf
    rw [reallocate_copy_toStatic_eq]
    simp only [List.length_append, List.length_map, List.length_take,
      List.length_replicate]
    omega
  · intro rto cto vs
    simp only [reallocate_copy_dynToDyn, VecStorage.new, VecStorage.resize]
    simp only [List.length_append, List.length_map, List.length_take,
      List.length_replicate]
    omega

/-- Claim C4, witness: the invariant holds at a dynamic 2-by-3 allocation,
at a static 2-by-2 reallocation of a 2-by-3 buffer, and at a
dynamic-to-dynamic reallocation. -/
theorem c4_witness :
    (Buffer.resizable (VecStorage.new 2 3 ([1, 2, 3, 4, 5, 6] : List Nat))).data.length =
        (Dim.Dynamic 2).value * (Dim.Const 3).value
    ∧ (reallocate_copy_toStatic 2 2 2 3 ([1, 2, 3, 4, 5, 6] : List Nat)).length = 2 * 2 :=
  ⟨(c4_length_invariant (T := Nat)).1 (Dim.Dynamic 2) (Dim.Const 3) [1, 2, 3, 4, 5, 6]
      (Buffer.resizable (VecStorage.new 2 3 [1, 2, 3, 4, 5, 6])) (by decide),
   (c4_length_invariant (T := Nat)).2.1 2 2 2 3 [1, 2, 3, 4, 5, 6] (by decide)⟩

/-- Claim C5: the storage strategy of the buffer returned by
`allocate_from_iterator` is determined purely by the static/dynamic kind of
the two dimension descriptors, for every run-time dimension value and every
input sequence: the buffer is the inline representation exactly when both
descriptors are static, and the resizable representation otherwise. -/
theorem c5_strategy_type_determined {T : Type u} (r c : Dim) (iter : List T)
    (buf : Buffer T) (h : allocate_from_iterator r c iter = some buf) :
    buf.isInline = true ↔ (r.isStatic = true ∧ c.isStatic = true) := by
  cases r with
  | Const R =>
    cases c with
    | Const C =>
      simp only [allocate_from_iterator] at h
      rw [Option.map_eq_some'] at h
      obtain ⟨d, -, rfl⟩ := h
      simp [Buffer.isInline, Dim.isStatic]
    | Dynamic nc =>
      simp only [allocate_from_iterator] at h
      rw [Option.map_eq_some'] at h
      obtain ⟨vs, -, rfl⟩ := h
      simp [Buffer.isInline, Dim.isStatic]
  | Dynamic nr =>
    simp only [allocate_from_iterator] at h
    rw [Option.map_eq_some'] at h
    obtain ⟨vs, -, rfl⟩ := h
    simp [Buffer.isInline, Dim.isStatic]

/-- Claim C5, witness: a dynamic-rows 3-by-2 allocation yields the
resizable representation, instantiating the type-determined-strategy
theorem at a concrete run-time value. -/
theorem c5_witness :
    (Buffer.resizable (VecStorage.new 3 2 ([1, 2, 3, 4, 5, 6] : List Nat))).isInline = true ↔
      ((Dim.Dynamic 3).isStatic = true ∧ (Dim.Const 2).isStatic = true) :=
  c5_strategy_type_determined (Dim.Dynamic 3) (Dim.Const 2) [1, 2, 3, 4, 5, 6]
    (Buffer.resizable (VecStorage.new 3 2 [1, 2, 3, 4, 5, 6])) (by decide)

/-- Claim C6: reallocating a fully-initialized buffer to its own shape (the
identity reshape) yields a buffer whose every slot holds the original
element, both through the static-destination block copy and through the
dynamic-to-dynamic resize path. -/
theorem c6_identity_reshape {T : Type u} (r c : Nat) (buf : List T)
    (h : buf.length = r * c) :
    reallocate_copy_toStatic r c r c buf = buf.map some
    ∧ (reallocate_copy_dynToDyn r c (VecStorage.new r c buf)).data = buf.map some := by
  constructor
  · rw [reallocate_copy_toStatic_eq, Nat.min_self, ← h, List.take_length,
      Nat.sub_self, List.replicate_zero, List.append_nil]
  · simp only [reallocate_copy_dynToDyn, VecStorage.new, VecStorage.resize]
    rw [← h, List.take_length, Nat.sub_self, List.replicate_zero, List.append_nil]

/-- Claim C6, witness: the 2-by-3 buffer holding 1..6 reshaped to 2-by-3 is
unchanged on both reallocation paths. -/
theorem c6_witness :
    reallocate_copy_toStatic 2 3 2 3 ([1, 2, 3, 4, 5, 6] : List Nat) =
        [1, 2, 3, 4, 5, 6].map some
    ∧ (reallocate_copy_dynToDyn 2 3
        (VecStorage.new 2 3 ([1, 2, 3, 4, 5, 6] : List Nat))).data =
        [1, 2, 3, 4, 5, 6].map some :=
  c6_identity_reshape 2 3 [1, 2, 3, 4, 5, 6] (by decide)

/-- Claim C7: the resize-based dynamic-to-dynamic `reallocate_copy` agrees,
on the initialized prefix of `min(old length, new length)` slots and for
every source buffer and target shape, with the allocate-then-block-copy
algorithm of the spec's steps 1-4 used by the other instantiations. -/
theorem c7_dyn_to_dyn_refines_block_copy {T : Type u} (rto cto : Nat)
    (buf : VecStorage T) :
    (reallocate_copy_dynToDyn rto cto buf).data.take
        (min buf.data.length (rto * cto)) =
      (blockCopyRealloc (rto * cto) buf.data).take
        (min buf.data.length (rto * cto)) := by
  simp only [reallocate_copy_dynToDyn, VecStorage.new]
  rw [resize_eq_blockCopy]

/-- Claim C8: at a concrete in-contract input (a static 2-by-2 buffer
holding 1..4, reallocated to a static-rows dynamic-columns 3-by-2 shape)
the `reallocate_copy` instantiation never terminates: it hands the
never-exhausted `iter::repeat_with(uninit)` iterator to the collecting
`allocate_from_iterator`, so no finite number of polls completes the
operation, contradicting the claim that every operation terminates with
work bounded by the shape sizes. -/
theorem c8_static_to_dyncols_never_returns (fuel : Nat) :
    reallocate_copy_staticToDynCols 2 2 3 2 ([1, 2, 3, 4] : List Nat) fuel = none := by
  simp [reallocate_copy_staticToDynCols, collectFuel_repeatUninit]

/-- Claim C10: for a `Copy` element type, the `InlinedClone` override
returns the value itself, agrees with `Clone`, and agrees with the trait's
default method body `self.clone()`: the operation is the identity on all
`Copy` scalar values. -/
theorem c10_inlined_clone_identity {T : Type u} (x : T) :
    inlined_clone_copy x = (copyCloneImpl T).clone x
    ∧ inlined_clone_copy x = x
    ∧ inlined_clone_default (copyCloneImpl T) x = inlined_clone_copy x :=
  ⟨rfl, rfl, rfl⟩

end Nalgebra
